import Mathlib

/-!
Shallow embedding of the B2B tender-platform backend (Express/Knex routes):
tender routes, application routes, auth registration and the search facade.
Records mirror the relational rows the routes read and write; each route
handler becomes a pure function from the database state and request data to
an HTTP response together with the successor database state.
-/

/-- One row of the `users` table. -/
structure User where
  id : Nat
  email : String
  password_hash : String
deriving DecidableEq, Repr

/-- One row of the `companies` table; `description` is nullable (it is
optional at registration). -/
structure Company where
  id : Nat
  user_id : Nat
  name : String
  industry : String
  description : Option String
deriving DecidableEq, Repr

/-- One row of the `tenders` table (single `budget` column, as in the
backend schema used by the routes; statuses are the strings the routes
compare against). -/
structure Tender where
  id : Nat
  company_id : Nat
  title : String
  description : String
  budget : Option Int
  currency : String
  deadline : Int
  status : String
deriving DecidableEq, Repr

/-- One row of the `applications` table. -/
structure Application where
  id : Nat
  tender_id : Nat
  company_id : Nat
  proposal : String
  quoted_price : Option Int
  currency : String
  status : String
  submitted_at : Int
deriving DecidableEq, Repr

/-- One row of the `goods_services` table (fields the search joins touch). -/
structure GoodsService where
  id : Nat
  company_id : Nat
  name : String
  description : String
deriving DecidableEq, Repr

/-- The relational store the handlers read and write. -/
structure DB where
  users : List User
  companies : List Company
  tenders : List Tender
  applications : List Application
  goods_services : List GoodsService
deriving DecidableEq, Repr

/-- The identity `authenticateToken` attaches to `req.user`: account id,
email and the (possibly absent) owning company id from the JWT payload. -/
structure AuthUser where
  id : Nat
  email : String
  companyId : Option Nat
deriving DecidableEq, Repr

/-- The response envelope `{success, error?: {message}}` together with the
HTTP status code. Success payloads are returned separately by each handler. -/
structure HttpResponse where
  status : Nat
  success : Bool
  errorMessage : Option String
deriving DecidableEq, Repr

def errResp (status : Nat) (msg : String) : HttpResponse :=
  { status := status, success := false, errorMessage := some msg }

def okResp (status : Nat) : HttpResponse :=
  { status := status, success := true, errorMessage := none }

/-- Containment of `pat` as a contiguous sublist of `hay`. -/
def containsSub (pat : List Char) : List Char → Bool
  | [] => pat.isEmpty
  | c :: t => pat.isPrefixOf (c :: t) || containsSub pat t

/-- ASCII lower-casing of one character (the fragment of ILIKE case
folding the fixture data exercises). -/
def charLower (c : Char) : Char :=
  if 65 ≤ c.toNat ∧ c.toNat ≤ 90 then Char.ofNat (c.toNat + 32) else c

/-- Case-insensitive substring containment: the semantics of SQL
`col ILIKE '%pat%'` on a non-null column. -/
def containsCI (hay pat : String) : Bool :=
  containsSub (pat.data.map charLower) (hay.data.map charLower)

/-- JavaScript truthiness of `req.query.x as string`: both an absent
parameter and the empty string are falsy. -/
def truthy : Option String → Option String
  | some "" => none
  | o => o

/-- Insertion step of a stable insertion sort with a boolean `le`. -/
def insertLe (le : α → α → Bool) (x : α) : List α → List α
  | [] => [x]
  | y :: ys => if le x y then x :: y :: ys else y :: insertLe le x ys

/-- Stable insertion sort, modelling the SQL `ORDER BY` of the list
endpoints. -/
def sortLe (le : α → α → Bool) : List α → List α
  | [] => []
  | x :: xs => insertLe le x (sortLe le xs)

theorem mem_insertLe (le : α → α → Bool) (x : α) (l : List α) (a : α) :
    a ∈ insertLe le x l ↔ a = x ∨ a ∈ l := by
  induction l with
  | nil => simp [insertLe]
  | cons y ys ih =>
    simp only [insertLe]
    split
    · simp
    · simp only [List.mem_cons, ih]
      tauto

theorem mem_sortLe (le : α → α → Bool) (l : List α) (a : α) :
    a ∈ sortLe le l ↔ a ∈ l := by
  induction l with
  | nil => simp [sortLe]
  | cons x xs ih => simp [sortLe, mem_insertLe, ih]

theorem length_insertLe (le : α → α → Bool) (x : α) (l : List α) :
    (insertLe le x l).length = l.length + 1 := by
  induction l with
  | nil => simp [insertLe]
  | cons y ys ih =>
    simp only [insertLe]
    split <;> simp [ih]

theorem length_sortLe (le : α → α → Bool) (l : List α) :
    (sortLe le l).length = l.length := by
  induction l with
  | nil => rfl
  | cons x xs ih => simp [sortLe, length_insertLe, ih]

/-- JavaScript `parseInt(q) || d`: both `NaN` (absent/garbage) and `0` fall back to the
default. -/
def jsNum (o : Option Nat) (d : Nat) : Nat :=
  match o with
  | some 0 => d
  | none => d
  | some n => n

/-- SQL `col ILIKE '%pat%'` on a nullable column: `NULL` never matches. -/
def optContainsCI (hay : Option String) (pat : String) : Bool :=
  hay.elim false (fun h => containsCI h pat)

/-- Joi `required()`: a missing key is the first validation error. -/
def require (o : Option α) (msg : String) : Except String α :=
  match o with
  | some a => .ok a
  | none => .error msg

def check (b : Bool) (msg : String) : Except String Unit :=
  if b then .ok () else .error msg

/-- Joi rejects keys not declared in the schema (`"key" is not allowed`). -/
def checkNoExtra (extraKeys : List String) (a : α) : Except String α :=
  match extraKeys with
  | [] => .ok a
  | k :: _ => .error (k ++ " is not allowed")

/-! ## Tender routes (`src/routes/tenders`) -/

/-- Raw JSON body of `POST /tenders` before Joi validation: the keys
`createTenderSchema` declares, each possibly absent, plus any keys outside
the schema. The `uuid`/`date` format checks are absorbed into the types. -/
structure CreateTenderRaw where
  title : Option String
  description : Option String
  budget : Option Int
  currency : Option String
  deadline : Option Int
  requirements : Option (List (String × String))
  attachments : Option (List String)
  extraKeys : List String
deriving DecidableEq, Repr

/-- Output of `createTenderSchema.validate` on success. -/
structure CreateTenderBody where
  title : String
  description : String
  budget : Option Int
  currency : String
  deadline : Int
  requirements : Option (List (String × String))
  attachments : Option (List String)
deriving DecidableEq, Repr

/-- Schema `createTenderSchema`: title ≥ 5 chars, description ≥ 20 chars, budget
positive when present, currency of length 3 defaulting to USD, deadline
strictly after `now`; unknown keys are not allowed. -/
def validateCreateTender (r : CreateTenderRaw) (now : Int) :
    Except String CreateTenderBody := do
  let title ← require r.title "title is required"
  check (title.length ≥ 5) "title length must be at least 5 characters long"
  let description ← require r.description "description is required"
  check (description.length ≥ 20)
    "description length must be at least 20 characters long"
  check (r.budget.elim true (fun b => decide (0 < b)))
    "budget must be a positive number"
  check (r.currency.elim true (fun c => c.length == 3))
    "currency length must be 3 characters long"
  let deadline ← require r.deadline "deadline is required"
  check (decide (now < deadline)) "deadline must be greater than now"
  checkNoExtra r.extraKeys
    { title, description, budget := r.budget,
      currency := r.currency.getD "USD", deadline,
      requirements := r.requirements, attachments := r.attachments }

/-- Statuses `updateTenderSchema` accepts. -/
def tenderStatuses : List String := ["draft", "open", "closed", "awarded"]

/-- Raw JSON body of `PUT /tenders/:id`. -/
structure UpdateTenderRaw where
  title : Option String
  description : Option String
  budget : Option Int
  currency : Option String
  deadline : Option Int
  requirements : Option (List (String × String))
  attachments : Option (List String)
  status : Option String
  extraKeys : List String
deriving DecidableEq, Repr

/-- Output of `updateTenderSchema.validate` on success: every field optional. -/
structure UpdateTenderBody where
  title : Option String
  description : Option String
  budget : Option Int
  currency : Option String
  deadline : Option Int
  requirements : Option (List (String × String))
  attachments : Option (List String)
  status : Option String
deriving DecidableEq, Repr

/-- Schema `updateTenderSchema`: same per-field bounds as creation, all optional,
plus `status` restricted to `tenderStatuses`; no transition check. -/
def validateUpdateTender (r : UpdateTenderRaw) (now : Int) :
    Except String UpdateTenderBody := do
  check (r.title.elim true (fun t => t.length ≥ 5))
    "title length must be at least 5 characters long"
  check (r.description.elim true (fun d => d.length ≥ 20))
    "description length must be at least 20 characters long"
  check (r.budget.elim true (fun b => decide (0 < b)))
    "budget must be a positive number"
  check (r.currency.elim true (fun c => c.length == 3))
    "currency length must be 3 characters long"
  check (r.deadline.elim true (fun d => decide (now < d)))
    "deadline must be greater than now"
  check (r.status.elim true (fun s => tenderStatuses.contains s))
    "status must be one of draft, open, closed, awarded"
  checkNoExtra r.extraKeys
    { title := r.title, description := r.description, budget := r.budget,
      currency := r.currency, deadline := r.deadline,
      requirements := r.requirements, attachments := r.attachments,
      status := r.status }

/-- SQL `UPDATE tenders SET {...value}` writes exactly the columns the validated
body contains, leaving the rest of the row unchanged. -/
def applyTenderUpdate (t : Tender) (v : UpdateTenderBody) : Tender :=
  { t with
    title := v.title.getD t.title
    description := v.description.getD t.description
    budget := (v.budget.map some).getD t.budget
    currency := v.currency.getD t.currency
    deadline := v.deadline.getD t.deadline
    status := v.status.getD t.status }

/-- Result of `PUT /tenders/:id`: the response, the tender row in the
success payload, and the successor database. -/
structure UpdateTenderResult where
  resp : HttpResponse
  tender : Option Tender
  db : DB
deriving DecidableEq, Repr

/-- Handler of `PUT /tenders/:id`: validate the body, require an owning
company, look the tender up by id AND owner in one query (absent and
not-owned are indistinguishable), then apply the update. -/
def updateTender (db : DB) (user : AuthUser) (id : Nat)
    (raw : UpdateTenderRaw) (now : Int) : UpdateTenderResult :=
  match validateUpdateTender raw now with
  | .error m => ⟨errResp 400 m, none, db⟩
  | .ok v =>
    match user.companyId with
    | none => ⟨errResp 400 "No company associated with user", none, db⟩
    | some companyId =>
      match db.tenders.find? (fun t => t.id == id && t.company_id == companyId) with
      | none => ⟨errResp 404 "Tender not found or access denied", none, db⟩
      | some t =>
        ⟨okResp 200, some (applyTenderUpdate t v),
          { db with tenders :=
              db.tenders.map (fun u => if u.id == id then applyTenderUpdate u v else u) }⟩

/-- Handler of `POST /tenders`. The inserted row's status comes from the
table default, which is not in the repository snapshot; per the spec's
observed default (new tenders appear under the public listing's default
filter) it is modelled as `"open"`. The inert `requirements`/`attachments`
columns are not carried on the row since no route reads them back. -/
def createTender (db : DB) (user : AuthUser) (raw : CreateTenderRaw)
    (now : Int) (newId : Nat) : HttpResponse × DB :=
  match validateCreateTender raw now with
  | .error m => (errResp 400 m, db)
  | .ok v =>
    match user.companyId with
    | none => (errResp 400 "No company associated with user", db)
    | some companyId =>
      let t : Tender :=
        { id := newId, company_id := companyId, title := v.title,
          description := v.description, budget := v.budget,
          currency := v.currency, deadline := v.deadline, status := "open" }
      (okResp 201, { db with tenders := db.tenders ++ [t] })

structure Pagination where
  page : Nat
  limit : Nat
  total : Nat
  pages : Nat
deriving DecidableEq, Repr

structure TenderListResult where
  tenders : List Tender
  pagination : Pagination
deriving DecidableEq, Repr

/-- Handler of `GET /tenders`. The WHERE chain is built as
`status-filter`, then `.where(title ILIKE).orWhere(description ILIKE)`
without grouping, so with a search term the SQL condition associates as
`(status AND title-match) OR description-match`. The count query applies
only the status filter. -/
def listTenders (db : DB) (pageQ limitQ : Option Nat)
    (statusQ searchQ : Option String) : TenderListResult :=
  let page := jsNum pageQ 1
  let limit := jsNum limitQ 10
  let eff := (truthy statusQ).getD "open"
  let pred : Tender → Bool := fun t =>
    match truthy searchQ with
    | none => t.status == eff
    | some q => (t.status == eff && containsCI t.title q) || containsCI t.description q
  let sorted := sortLe (fun a b => decide (a.deadline ≤ b.deadline)) (db.tenders.filter pred)
  let tenders := (sorted.drop ((page - 1) * limit)).take limit
  let total := (db.tenders.filter (fun t => t.status == eff)).length
  { tenders,
    pagination := { page, limit, total, pages := (total + limit - 1) / limit } }

/-! ## Application routes (`src/routes/applications`) -/

/-- Statuses `updateApplicationStatusSchema` accepts. -/
def applicationStatuses : List String :=
  ["submitted", "under_review", "accepted", "rejected"]

/-- Raw JSON body of `POST /applications`; the `uuid` format check on
`tenderId` is absorbed into the id type. -/
structure CreateApplicationRaw where
  tenderId : Option Nat
  proposal : Option String
  quotedPrice : Option Int
  currency : Option String
  attachments : Option (List String)
  extraKeys : List String
deriving DecidableEq, Repr

/-- Output of `createApplicationSchema.validate` on success. -/
structure CreateApplicationBody where
  tenderId : Nat
  proposal : String
  quotedPrice : Option Int
  currency : String
  attachments : Option (List String)
deriving DecidableEq, Repr

/-- Schema `createApplicationSchema`: tenderId required, proposal ≥ 50 chars,
quotedPrice positive when present, currency of length 3 defaulting to USD. -/
def validateCreateApplication (r : CreateApplicationRaw) :
    Except String CreateApplicationBody := do
  let tenderId ← require r.tenderId "tenderId is required"
  let proposal ← require r.proposal "proposal is required"
  check (proposal.length ≥ 50)
    "proposal length must be at least 50 characters long"
  check (r.quotedPrice.elim true (fun p => decide (0 < p)))
    "quotedPrice must be a positive number"
  check (r.currency.elim true (fun c => c.length == 3))
    "currency length must be 3 characters long"
  checkNoExtra r.extraKeys
    { tenderId, proposal, quotedPrice := r.quotedPrice,
      currency := r.currency.getD "USD", attachments := r.attachments }

/-- Handler of `POST /applications`: validate, require an owning company,
then guard in order — tender exists, tender status is `open`, deadline not
passed (`new Date(tender.deadline) < new Date()`), no existing application
for the (tender, company) pair — before inserting. The inserted row's
status comes from the table default, modelled as `"submitted"` per the
spec's scenario. -/
def createApplication (db : DB) (user : AuthUser) (raw : CreateApplicationRaw)
    (now : Int) (newId : Nat) : HttpResponse × DB :=
  match validateCreateApplication raw with
  | .error m => (errResp 400 m, db)
  | .ok v =>
    match user.companyId with
    | none => (errResp 400 "No company associated with user", db)
    | some companyId =>
      match db.tenders.find? (fun t => t.id == v.tenderId) with
      | none => (errResp 404 "Tender not found", db)
      | some tender =>
        if tender.status != "open" then
          (errResp 400 "Tender is not open for applications", db)
        else if tender.deadline < now then
          (errResp 400 "Tender deadline has passed", db)
        else
          match db.applications.find?
              (fun a => a.tender_id == v.tenderId && a.company_id == companyId) with
          | some _ => (errResp 409 "Company has already applied to this tender", db)
          | none =>
            let app : Application :=
              { id := newId, tender_id := v.tenderId, company_id := companyId,
                proposal := v.proposal, quoted_price := v.quotedPrice,
                currency := v.currency, status := "submitted",
                submitted_at := now }
            (okResp 201, { db with applications := db.applications ++ [app] })

/-- Raw JSON body of `PATCH /applications/:id/status`. -/
structure UpdateApplicationStatusRaw where
  status : Option String
  extraKeys : List String
deriving DecidableEq, Repr

/-- Schema `updateApplicationStatusSchema`: a required status drawn from
`applicationStatuses` (note: `shortlisted` is not in the list). -/
def validateUpdateApplicationStatus (r : UpdateApplicationStatusRaw) :
    Except String String := do
  let s ← require r.status "status is required"
  check (applicationStatuses.contains s)
    "status must be one of submitted, under_review, accepted, rejected"
  checkNoExtra r.extraKeys s

/-- Handler of `PATCH /applications/:id/status`: validate the status,
require an owning company, find the application joined to a tender owned by
the caller (absent and not-owned are indistinguishable), then store the
given status unconditionally — no transition check against the current
status. -/
def updateApplicationStatus (db : DB) (user : AuthUser) (id : Nat)
    (raw : UpdateApplicationStatusRaw) : HttpResponse × DB :=
  match validateUpdateApplicationStatus raw with
  | .error m => (errResp 400 m, db)
  | .ok s =>
    match user.companyId with
    | none => (errResp 400 "No company associated with user", db)
    | some companyId =>
      match db.applications.find? (fun a =>
          a.id == id && db.tenders.any (fun t =>
            t.id == a.tender_id && t.company_id == companyId)) with
      | none => (errResp 404 "Application not found or access denied", db)
      | some _ =>
        (okResp 200,
          { db with applications :=
              db.applications.map (fun a => if a.id == id then { a with status := s } else a) })

/-! ## Auth routes (`src/routes/auth`) -/

/-- Raw JSON body of `POST /auth/register`. -/
structure RegisterRaw where
  email : Option String
  password : Option String
  companyName : Option String
  industry : Option String
  description : Option String
  extraKeys : List String
deriving DecidableEq, Repr

/-- Output of `registerSchema.validate` on success. -/
structure RegisterBody where
  email : String
  password : String
  companyName : String
  industry : String
  description : Option String
deriving DecidableEq, Repr

/-- Joi's `email()` format grammar, abstracted to its load-bearing part:
the address must contain an `@`. -/
def emailLike (e : String) : Bool := e.toList.contains '@'

/-- Schema `registerSchema`: valid email, password ≥ 8 chars, companyName ≥ 2
chars, industry ≥ 2 chars, description optional. -/
def validateRegister (r : RegisterRaw) : Except String RegisterBody := do
  let email ← require r.email "email is required"
  check (emailLike email) "email must be a valid email"
  let password ← require r.password "password is required"
  check (password.length ≥ 8) "password length must be at least 8 characters long"
  let companyName ← require r.companyName "companyName is required"
  check (companyName.length ≥ 2)
    "companyName length must be at least 2 characters long"
  let industry ← require r.industry "industry is required"
  check (industry.length ≥ 2)
    "industry length must be at least 2 characters long"
  checkNoExtra r.extraKeys
    { email, password, companyName, industry, description := r.description }

/-- Hashing via `bcrypt.hash` is an external collaborator; modelled as an injective
tagging function (the claims never inspect the digest). -/
def bcryptHash (password : String) : String := "bcrypt$" ++ password

/-- Handler of `POST /auth/register`: validate, reject a duplicate email
with 409, then create the user row and its company row inside one
`db.transaction` — the two inserts commit together or not at all, which the
embedding renders as a single state update producing both rows. -/
def register (db : DB) (raw : RegisterRaw) (newUserId newCompanyId : Nat) :
    HttpResponse × DB :=
  match validateRegister raw with
  | .error m => (errResp 400 m, db)
  | .ok v =>
    match db.users.find? (fun u => u.email == v.email) with
    | some _ => (errResp 409 "User with this email already exists", db)
    | none =>
      let user : User :=
        { id := newUserId, email := v.email, password_hash := bcryptHash v.password }
      let company : Company :=
        { id := newCompanyId, user_id := newUserId, name := v.companyName,
          industry := v.industry, description := v.description }
      (okResp 201,
        { db with users := db.users ++ [user], companies := db.companies ++ [company] })

/-! ## Search facade (`src/routes/search`) -/

/-- Outcome of a search endpoint: the early 400, or a result page with the
pagination fields the response carries. -/
inductive SearchResult (α : Type)
  | badRequest (msg : String)
  | ok (items : List α) (page : Nat) (limit : Nat) (hasMore : Bool)
deriving DecidableEq, Repr

/-- The grouped WHERE of `GET /search/companies` for a text query: company
name/description or any joined goods/services row matches (`DISTINCT`
collapses the join back to one row per company; a company with no
goods/services rows still appears via the left join but its null
goods columns never match). -/
def companyMatches (db : DB) (q : String) (c : Company) : Bool :=
  containsCI c.name q || optContainsCI c.description q ||
    db.goods_services.any (fun g =>
      g.company_id == c.id && (containsCI g.name q || containsCI g.description q))

/-- The conjunction of WHERE clauses `GET /search/companies` builds from
the (truthy) text query and industry filter. -/
def searchCompaniesPred (db : DB) (q industry : Option String) : Company → Bool :=
  fun c =>
    (q.elim true (fun s => companyMatches db s c)) &&
    (industry.elim true (fun i => containsCI c.industry i))

/-- Ordering `ORDER BY companies.name ASC`. -/
def companyNameLe (a b : Company) : Bool :=
  decide (a.name < b.name) || a.name == b.name

/-- The per-company goods/services enrichment (`.limit(5)`). -/
def goodsFor (db : DB) (c : Company) : Company × List GoodsService :=
  (c, (db.goods_services.filter (fun g => g.company_id == c.id)).take 5)

/-- Handler of `GET /search/companies`: 400 when neither `q` nor
`industry` is truthy; otherwise filter, order by name, paginate, attach up
to 5 goods/services per company, and report
`hasMore := companies.length === limit`. -/
def searchCompanies (db : DB) (qQ industryQ : Option String)
    (pageQ limitQ : Option Nat) : SearchResult (Company × List GoodsService) :=
  let q := truthy qQ
  let industry := truthy industryQ
  let page := jsNum pageQ 1
  let limit := jsNum limitQ 10
  if q.isNone && industry.isNone then
    .badRequest "Search query or industry filter is required"
  else
    let sorted := sortLe companyNameLe
      (db.companies.filter (searchCompaniesPred db q industry))
    let companies := (sorted.drop ((page - 1) * limit)).take limit
    .ok (companies.map (goodsFor db)) page limit (companies.length == limit)

/-- Handler of `GET /search/tenders`: status defaults to `open`
(`req.query.status as string || 'open'`), the text query is grouped, the
industry filter matches the owning company through the join, ordering is by
ascending deadline, and `hasMore := tenders.length === limit`. -/
def searchTenders (db : DB) (qQ industryQ statusQ : Option String)
    (pageQ limitQ : Option Nat) : SearchResult Tender :=
  let q := truthy qQ
  let industry := truthy industryQ
  let status := (truthy statusQ).getD "open"
  let page := jsNum pageQ 1
  let limit := jsNum limitQ 10
  let pred : Tender → Bool := fun t =>
    t.status == status &&
    (q.elim true (fun s => containsCI t.title s || containsCI t.description s)) &&
    (industry.elim true (fun i => db.companies.any (fun c =>
      c.id == t.company_id && containsCI c.industry i)))
  let sorted := sortLe (fun a b => decide (a.deadline ≤ b.deadline))
    (db.tenders.filter pred)
  let tenders := (sorted.drop ((page - 1) * limit)).take limit
  .ok tenders page limit (tenders.length == limit)

/-! ## Invariants -/

/-- The application-ledger uniqueness invariant: at most one row per
(tender, applying company) pair. -/
def pairUnique (apps : List Application) : Prop :=
  List.Pairwise
    (fun a b => ¬(a.tender_id = b.tender_id ∧ a.company_id = b.company_id)) apps

/-! ## Concrete fixtures used by witnesses and counterexamples -/

def coAcme : Company := ⟨1, 1, "Acme Corp", "Technology", some "We build industrial tools"⟩

def coBeta : Company := ⟨2, 2, "Beta LLC", "Technology", none⟩

def userAcme : AuthUser := ⟨1, "a@x.com", some 1⟩

def userBeta : AuthUser := ⟨2, "b@x.com", some 2⟩

def tenderOpen : Tender :=
  ⟨1, 1, "Build a website", "A public site with catalogue and checkout pages",
    some 5000, "USD", 100, "open"⟩

def tenderClosed : Tender :=
  ⟨2, 1, "Old widget contract", "Supply of widget stock for the northern depot",
    none, "USD", 5, "closed"⟩

def appBetaOnOpen : Application :=
  ⟨1, 1, 2, "We propose a complete build with staged delivery and support.",
    some 4000, "USD", "submitted", 10⟩

def validAppRaw : CreateApplicationRaw :=
  { tenderId := some 1,
    proposal := some "We propose a complete build with staged delivery and support.",
    quotedPrice := some 4000, currency := none, attachments := none,
    extraKeys := [] }

/-! ## Claims -/

/-- C1: for every (tender, applying organization) pair at most one
application row exists — a second `POST /applications` for a pair that
already has a row (on a submission that passes the earlier guards: valid
payload, owning company, tender found, tender open, deadline not passed)
returns 409 Conflict and leaves the ledger unchanged, and every
`POST /applications` preserves the at-most-one-row-per-pair invariant. -/
theorem c1_duplicate_application_conflict :
    (∀ (db : DB) (user : AuthUser) (raw : CreateApplicationRaw) (now : Int)
        (newId : Nat) (v : CreateApplicationBody) (companyId : Nat) (tender : Tender),
      validateCreateApplication raw = .ok v →
      user.companyId = some companyId →
      db.tenders.find? (fun t => t.id == v.tenderId) = some tender →
      tender.status = "open" →
      ¬ tender.deadline < now →
      (∃ a ∈ db.applications, a.tender_id = v.tenderId ∧ a.company_id = companyId) →
      createApplication db user raw now newId =
        (errResp 409 "Company has already applied to this tender", db)) ∧
    (∀ (db : DB) (user : AuthUser) (raw : CreateApplicationRaw) (now : Int) (newId : Nat),
      pairUnique db.applications →
      pairUnique ((createApplication db user raw now newId).2).applications) := by
  constructor
  · intro db user raw now newId v companyId tender hv hc ht hopen hdl hdup
    obtain ⟨a, ha, hat, hac⟩ := hdup
    have hsome : (db.applications.find?
        (fun a => a.tender_id == v.tenderId && a.company_id == companyId)).isSome :=
      List.find?_isSome.mpr ⟨a, ha, by simp [hat, hac]⟩
    cases hfind : db.applications.find?
        (fun a => a.tender_id == v.tenderId && a.company_id == companyId) with
    | none => rw [hfind] at hsome; simp at hsome
    | some b =>
      simp only [createApplication, hv, hc, ht, hopen, if_neg hdl, hfind,
        bne_self_eq_false, Bool.false_eq_true, if_false]
  · intro db user raw now newId hpu
    cases hv : validateCreateApplication raw with
    | error m => simp only [createApplication, hv]; exact hpu
    | ok v =>
      cases hc : user.companyId with
      | none => simp only [createApplication, hv, hc]; exact hpu
      | some companyId =>
        cases ht : db.tenders.find? (fun t => t.id == v.tenderId) with
        | none => simp only [createApplication, hv, hc, ht]; exact hpu
        | some tender =>
          by_cases hopen : (tender.status != "open") = true
          · simp only [createApplication, hv, hc, ht, if_pos hopen]; exact hpu
          · by_cases hdl : tender.deadline < now
            · simp only [createApplication, hv, hc, ht, if_neg hopen, if_pos hdl]
              exact hpu
            · cases hfind : db.applications.find?
                  (fun a => a.tender_id == v.tenderId && a.company_id == companyId) with
              | some b =>
                simp only [createApplication, hv, hc, ht, if_neg hopen,
                  if_neg hdl, hfind]
                exact hpu
              | none =>
                simp only [createApplication, hv, hc, ht, if_neg hopen,
                  if_neg hdl, hfind]
                simp only [pairUnique, List.pairwise_append] at *
                refine ⟨hpu, List.pairwise_singleton _ _, ?_⟩
                intro a ha b hb
                simp only [List.mem_singleton] at hb
                subst hb
                have := List.find?_eq_none.mp hfind a ha
                simp only [Bool.and_eq_true, beq_iff_eq, not_and] at this
                intro hcontra
                exact this hcontra.1 hcontra.2

/-- Witness for C1 at a concrete database holding the duplicate row. -/
theorem c1_witness :
    createApplication ⟨[], [coAcme, coBeta], [tenderOpen], [appBetaOnOpen], []⟩
        userBeta validAppRaw 50 99 =
      (errResp 409 "Company has already applied to this tender",
        ⟨[], [coAcme, coBeta], [tenderOpen], [appBetaOnOpen], []⟩) ∧
    pairUnique ((createApplication ⟨[], [coAcme, coBeta], [tenderOpen],
        [appBetaOnOpen], []⟩ userBeta validAppRaw 50 99).2).applications := by
  constructor
  · exact c1_duplicate_application_conflict.1 _ userBeta validAppRaw 50 99
      { tenderId := 1,
        proposal := "We propose a complete build with staged delivery and support.",
        quotedPrice := some 4000, currency := "USD", attachments := none }
      2 tenderOpen rfl rfl rfl rfl (by decide)
      ⟨appBetaOnOpen, by simp, rfl, rfl⟩
  · exact c1_duplicate_application_conflict.2 _ userBeta validAppRaw 50 99
      (by simp [pairUnique])

def updRawClose : UpdateTenderRaw :=
  { title := none, description := none, budget := none, currency := none,
    deadline := none, requirements := none, attachments := none,
    status := some "closed", extraKeys := [] }

/-- C2: a `PUT /tenders/:id` from an organization that does not own the
tender is indistinguishable — same 404 status, same error body, same
(unchanged) database — from a `PUT` against a tender id that does not
exist, because the handler looks the tender up by id and owner in a single
query. -/
theorem c2_update_nonowner_indistinguishable
    (db : DB) (user : AuthUser) (raw : UpdateTenderRaw) (now : Int)
    (companyId : Nat) (i iAbsent : Nat) (v : UpdateTenderBody)
    (hv : validateUpdateTender raw now = .ok v)
    (hc : user.companyId = some companyId)
    (_hexists : ∃ t ∈ db.tenders, t.id = i)
    (hnotown : ∀ t ∈ db.tenders, t.id = i → t.company_id ≠ companyId)
    (habsent : ∀ t ∈ db.tenders, t.id ≠ iAbsent) :
    updateTender db user i raw now = updateTender db user iAbsent raw now ∧
    updateTender db user i raw now =
      ⟨errResp 404 "Tender not found or access denied", none, db⟩ := by
  have h1 : db.tenders.find? (fun t => t.id == i && t.company_id == companyId) = none := by
    rw [List.find?_eq_none]
    intro t ht
    simp only [Bool.and_eq_true, beq_iff_eq, not_and]
    exact hnotown t ht
  have h2 : db.tenders.find? (fun t => t.id == iAbsent && t.company_id == companyId) = none := by
    rw [List.find?_eq_none]
    intro t ht
    simp only [Bool.and_eq_true, beq_iff_eq, not_and]
    intro hid
    exact absurd hid (habsent t ht)
  constructor <;> simp only [updateTender, hv, hc, h1, h2]

/-- Witness for C2: Beta's update of Acme's tender versus an update of an
absent id. -/
theorem c2_witness :
    updateTender ⟨[], [coAcme, coBeta], [tenderOpen], [], []⟩ userBeta 1 updRawClose 0 =
      updateTender ⟨[], [coAcme, coBeta], [tenderOpen], [], []⟩ userBeta 77 updRawClose 0 ∧
    updateTender ⟨[], [coAcme, coBeta], [tenderOpen], [], []⟩ userBeta 1 updRawClose 0 =
      ⟨errResp 404 "Tender not found or access denied", none,
        ⟨[], [coAcme, coBeta], [tenderOpen], [], []⟩⟩ :=
  c2_update_nonowner_indistinguishable _ userBeta updRawClose 0 2 1 77
    { title := none, description := none, budget := none, currency := none,
      deadline := none, requirements := none, attachments := none,
      status := some "closed" }
    rfl rfl ⟨tenderOpen, by simp, rfl⟩ (by decide) (by decide)

def tenderOpenPast : Tender :=
  ⟨3, 1, "Van fleet maintenance", "Quarterly maintenance of the delivery van fleet",
    none, "USD", 5, "open"⟩

def rawAppTender2 : CreateApplicationRaw :=
  { validAppRaw with tenderId := some 2 }

def rawAppTender3 : CreateApplicationRaw :=
  { validAppRaw with tenderId := some 3 }

/-- C3 counterexample: against a tender whose deadline (5) is strictly
before now (50) but whose status is `closed`, a valid submission is
rejected with the tender-not-open error, not the deadline-passed error the
claim requires. -/
theorem c3_counterexample :
    (createApplication ⟨[], [coAcme, coBeta], [tenderClosed], [], []⟩
        userBeta rawAppTender2 50 99).1 =
      errResp 400 "Tender is not open for applications" ∧
    (createApplication ⟨[], [coAcme, coBeta], [tenderClosed], [], []⟩
        userBeta rawAppTender2 50 99).1 ≠
      errResp 400 "Tender deadline has passed" := by
  constructor
  · rfl
  · decide

/-- C3 amended: a valid submission against a tender whose deadline is
strictly in the past always fails with a 400 response and leaves the
database unchanged, but the deadline-passed error is the response exactly
when the tender status is `open`; the status guard runs first, so a
non-open tender yields the tender-not-open error instead. -/
theorem c3_deadline_passed_behavior
    (db : DB) (user : AuthUser) (raw : CreateApplicationRaw) (now : Int)
    (newId : Nat) (v : CreateApplicationBody) (companyId : Nat) (tender : Tender)
    (hv : validateCreateApplication raw = .ok v)
    (hc : user.companyId = some companyId)
    (ht : db.tenders.find? (fun t => t.id == v.tenderId) = some tender)
    (hdl : tender.deadline < now) :
    ((createApplication db user raw now newId).2 = db ∧
      (createApplication db user raw now newId).1.status = 400 ∧
      (createApplication db user raw now newId).1.success = false) ∧
    (tender.status = "open" →
      (createApplication db user raw now newId).1 =
        errResp 400 "Tender deadline has passed") := by
  by_cases hopen : (tender.status != "open") = true
  · simp only [createApplication, hv, hc, ht, if_pos hopen]
    refine ⟨⟨trivial, rfl, rfl⟩, ?_⟩
    intro h
    rw [h] at hopen
    simp at hopen
  · simp only [createApplication, hv, hc, ht, if_neg hopen, if_pos hdl]
    exact ⟨⟨trivial, rfl, rfl⟩, fun _ => trivial⟩

/-- Witness for C3 (amended) on an open tender with a past deadline. -/
theorem c3_witness :
    ((createApplication ⟨[], [coAcme, coBeta], [tenderOpenPast], [], []⟩
        userBeta rawAppTender3 50 99).2 =
      ⟨[], [coAcme, coBeta], [tenderOpenPast], [], []⟩ ∧
      (createApplication ⟨[], [coAcme, coBeta], [tenderOpenPast], [], []⟩
        userBeta rawAppTender3 50 99).1.status = 400 ∧
      (createApplication ⟨[], [coAcme, coBeta], [tenderOpenPast], [], []⟩
        userBeta rawAppTender3 50 99).1.success = false) ∧
    (tenderOpenPast.status = "open" →
      (createApplication ⟨[], [coAcme, coBeta], [tenderOpenPast], [], []⟩
        userBeta rawAppTender3 50 99).1 =
        errResp 400 "Tender deadline has passed") :=
  c3_deadline_passed_behavior _ userBeta rawAppTender3 50 99
    { tenderId := 3,
      proposal := "We propose a complete build with staged delivery and support.",
      quotedPrice := some 4000, currency := "USD", attachments := none }
    2 tenderOpenPast rfl rfl rfl (by decide)

def updRawReopen : UpdateTenderRaw :=
  { title := none, description := none, budget := none, currency := none,
    deadline := none, requirements := none, attachments := none,
    status := some "open", extraKeys := [] }

/-- C4 counterexample: the owner of a `closed` tender issues
`PUT /tenders/2 {status: "open"}` and the update succeeds, moving the
status backward from `closed` to `open`. -/
theorem c4_counterexample :
    updateTender ⟨[], [coAcme], [tenderClosed], [], []⟩ userAcme 2 updRawReopen 0 =
      ⟨okResp 200, some { tenderClosed with status := "open" },
        ⟨[], [coAcme], [{ tenderClosed with status := "open" }], [], []⟩⟩ := rfl

/-- C4 amended: tender status updates perform no transition validation —
whenever the body validates (status drawn from
draft/open/closed/awarded) and the caller's organization owns the tender,
the update succeeds and stores the requested status verbatim, whatever the
current status; in particular closed or awarded tenders can be moved back
to open. -/
theorem c4_no_transition_validation
    (db : DB) (user : AuthUser) (raw : UpdateTenderRaw) (now : Int)
    (id : Nat) (v : UpdateTenderBody) (s : String) (companyId : Nat) (t : Tender)
    (hv : validateUpdateTender raw now = .ok v)
    (hs : v.status = some s)
    (hc : user.companyId = some companyId)
    (ht : db.tenders.find? (fun t => t.id == id && t.company_id == companyId) = some t) :
    (updateTender db user id raw now).resp = okResp 200 ∧
    ∀ u ∈ (updateTender db user id raw now).db.tenders, u.id = id → u.status = s := by
  simp only [updateTender, hv, hc, ht]
  refine ⟨trivial, ?_⟩
  intro u hu hid
  simp only [List.mem_map] at hu
  obtain ⟨w, hw, hwu⟩ := hu
  by_cases h : (w.id == id) = true
  · rw [if_pos h] at hwu
    subst hwu
    simp [applyTenderUpdate, hs]
  · rw [if_neg h] at hwu
    subst hwu
    exact absurd (by simp [hid]) h

def tenderAwarded : Tender :=
  ⟨4, 1, "Completed printing contract",
    "Annual printing of brochures and booklets for headquarters",
    none, "USD", 20, "awarded"⟩

/-- Witness for C4 (amended): an awarded tender is moved back to open. -/
theorem c4_witness :
    (updateTender ⟨[], [coAcme], [tenderAwarded], [], []⟩ userAcme 4 updRawReopen 0).resp =
      okResp 200 ∧
    ∀ u ∈ (updateTender ⟨[], [coAcme], [tenderAwarded], [], []⟩
        userAcme 4 updRawReopen 0).db.tenders, u.id = 4 → u.status = "open" :=
  c4_no_transition_validation _ userAcme updRawReopen 0 4
    { title := none, description := none, budget := none, currency := none,
      deadline := none, requirements := none, attachments := none,
      status := some "open" }
    "open" 1 tenderAwarded rfl rfl rfl rfl

/-- C5 counterexample: `shortlisted` is in the claim's declared status set,
yet the tender owner's `PATCH /applications/1/status {status:"shortlisted"}`
is rejected by validation with 400 and the ledger is unchanged — the
backend schema only admits submitted/under_review/accepted/rejected. -/
theorem c5_counterexample :
    updateApplicationStatus ⟨[], [coAcme, coBeta], [tenderOpen], [appBetaOnOpen], []⟩
        userAcme 1 ⟨some "shortlisted", []⟩ =
      (errResp 400 "status must be one of submitted, under_review, accepted, rejected",
        ⟨[], [coAcme, coBeta], [tenderOpen], [appBetaOnOpen], []⟩) := rfl

/-- C5 amended: for every status in the set the backend schema actually
declares — {submitted, under_review, accepted, rejected}, without
`shortlisted` — a status update by the tender-owning organization succeeds
and stores the given status as-is, with no check that it is a legal forward
transition from the current status (e.g. rejected → accepted succeeds);
`shortlisted` is rejected with a validation error. -/
theorem c5_status_update_no_transition_check
    (db : DB) (user : AuthUser) (id : Nat) (s : String)
    (companyId : Nat) (app : Application)
    (hs : s ∈ applicationStatuses)
    (hc : user.companyId = some companyId)
    (ha : db.applications.find? (fun a =>
        a.id == id && db.tenders.any (fun t =>
          t.id == a.tender_id && t.company_id == companyId)) = some app) :
    (updateApplicationStatus db user id ⟨some s, []⟩).1 = okResp 200 ∧
    (∀ b ∈ (updateApplicationStatus db user id ⟨some s, []⟩).2.applications,
      b.id = id → b.status = s) ∧
    validateUpdateApplicationStatus ⟨some "shortlisted", []⟩ =
      .error "status must be one of submitted, under_review, accepted, rejected" := by
  have hv : validateUpdateApplicationStatus ⟨some s, []⟩ = .ok s := by
    simp only [applicationStatuses, List.mem_cons, List.not_mem_nil, or_false] at hs
    rcases hs with rfl | rfl | rfl | rfl <;> rfl
  refine ⟨?_, ?_, rfl⟩
  · simp only [updateApplicationStatus, hv, hc, ha]
  · simp only [updateApplicationStatus, hv, hc, ha]
    intro b hb hid
    simp only [List.mem_map] at hb
    obtain ⟨w, hw, hwb⟩ := hb
    by_cases h : (w.id == id) = true
    · rw [if_pos h] at hwb
      subst hwb
      rfl
    · rw [if_neg h] at hwb
      subst hwb
      exact absurd (by simp [hid]) h

def appRejected : Application :=
  { appBetaOnOpen with status := "rejected" }

/-- Witness for C5 (amended): the owner moves a rejected application
directly to accepted. -/
theorem c5_witness :
    (updateApplicationStatus ⟨[], [coAcme, coBeta], [tenderOpen], [appRejected], []⟩
        userAcme 1 ⟨some "accepted", []⟩).1 = okResp 200 ∧
    (∀ b ∈ (updateApplicationStatus ⟨[], [coAcme, coBeta], [tenderOpen],
        [appRejected], []⟩ userAcme 1 ⟨some "accepted", []⟩).2.applications,
      b.id = 1 → b.status = "accepted") ∧
    validateUpdateApplicationStatus ⟨some "shortlisted", []⟩ =
      .error "status must be one of submitted, under_review, accepted, rejected" :=
  c5_status_update_no_transition_check _ userAcme 1 "accepted" 1 appRejected
    (by decide) rfl rfl

/-- C6 counterexample: with the explicit filter `status=open` and the
search term `widget`, the listing returns the `closed` tender whose
description contains the term — the ungrouped `orWhere` turns the SQL
condition into `(status AND title-match) OR description-match`. -/
theorem c6_counterexample :
    tenderClosed ∈ (listTenders ⟨[], [coAcme], [tenderOpen, tenderClosed], [], []⟩
        none none (some "open") (some "widget")).tenders ∧
    tenderClosed.status ≠ "open" := by
  constructor
  · decide
  · decide

/-- C6 amended: without a search term the status filter is exact — every
tender returned by `GET /tenders` has the requested status, or the default
`open` status when the filter is omitted or empty; with a search term the
ungrouped `orWhere` can also return tenders of other statuses whose
description matches. -/
theorem c6_status_filter_exact_without_search
    (db : DB) (pageQ limitQ : Option Nat) (statusQ : Option String) :
    ∀ t ∈ (listTenders db pageQ limitQ statusQ none).tenders,
      t.status = (truthy statusQ).getD "open" := by
  intro t ht
  simp only [listTenders] at ht
  have h1 := List.mem_of_mem_take ht
  have h2 := List.mem_of_mem_drop h1
  have h3 := (mem_sortLe _ _ _).mp h2
  have h4 := (List.mem_filter.mp h3).2
  rw [show truthy none = none from rfl] at h4
  simpa using h4

/-- Witness for C6 (amended): the open tender sits in the default listing
and indeed carries the default status. -/
theorem c6_witness :
    tenderOpen ∈ (listTenders ⟨[], [coAcme], [tenderOpen, tenderClosed], [], []⟩
        none none none none).tenders ∧
    tenderOpen.status = (truthy none).getD "open" :=
  ⟨by decide,
    c6_status_filter_exact_without_search
      ⟨[], [coAcme], [tenderOpen, tenderClosed], [], []⟩ none none none
      tenderOpen (by decide)⟩

def tenderRawWithBoundKeys : CreateTenderRaw :=
  { title := some "Office refit tender",
    description := some "Full refit of the second-floor office space",
    budget := none, currency := none, deadline := some 100,
    requirements := none, attachments := none,
    extraKeys := ["budget_min", "budget_max"] }

/-- C7: the backend tender schema has a single `budget` column and no
`budget_min`/`budget_max` keys at all, so a creation payload carrying both
bounds is rejected as carrying unknown keys — whatever the bounds' values,
including valid ones with min ≤ max — while the identical payload without
the bound keys is accepted. This contradicts the claim's data model (and
the repository's own frontend `Tender` type, which declares
`budget_min`/`budget_max`). -/
theorem c7_budget_bounds_rejected_as_unknown :
    validateCreateTender tenderRawWithBoundKeys 0 =
      .error "budget_min is not allowed" ∧
    validateCreateTender { tenderRawWithBoundKeys with extraKeys := [] } 0 =
      .ok { title := "Office refit tender",
            description := "Full refit of the second-floor office space",
            budget := none, currency := "USD", deadline := 100,
            requirements := none, attachments := none } ∧
    createTender ⟨[], [coAcme], [], [], []⟩ userAcme tenderRawWithBoundKeys 0 5 =
      (errResp 400 "budget_min is not allowed", ⟨[], [coAcme], [], [], []⟩) :=
  ⟨rfl, rfl, rfl⟩

/-- C8: registration is atomic across the two records it creates — for
every request and database either both the user row and the company row are
appended (and the company references the new user), or neither table
changes. -/
theorem c8_register_atomic (db : DB) (raw : RegisterRaw)
    (newUserId newCompanyId : Nat) :
    ((register db raw newUserId newCompanyId).2.users = db.users ∧
      (register db raw newUserId newCompanyId).2.companies = db.companies) ∨
    (∃ u c, (register db raw newUserId newCompanyId).2.users = db.users ++ [u] ∧
      (register db raw newUserId newCompanyId).2.companies = db.companies ++ [c] ∧
      c.user_id = u.id) := by
  cases hv : validateRegister raw with
  | error m => left; constructor <;> simp [register, hv]
  | ok v =>
    cases hf : db.users.find? (fun u => u.email == v.email) with
    | some u => left; constructor <;> simp [register, hv, hf]
    | none =>
      right
      exact ⟨{ id := newUserId, email := v.email,
               password_hash := bcryptHash v.password },
             { id := newCompanyId, user_id := newUserId, name := v.companyName,
               industry := v.industry, description := v.description },
             by simp [register, hv, hf], by simp [register, hv, hf], rfl⟩

/-- C10: `GET /search/companies` with neither a truthy text query nor a
truthy industry filter returns the 400 validation error without searching;
with at least one of the two it proceeds and returns a result page. -/
theorem c10_companies_search_requires_query_or_industry :
    (∀ (db : DB) (qQ iQ : Option String) (pQ lQ : Option Nat),
      truthy qQ = none → truthy iQ = none →
      searchCompanies db qQ iQ pQ lQ =
        .badRequest "Search query or industry filter is required") ∧
    (∀ (db : DB) (qQ iQ : Option String) (pQ lQ : Option Nat),
      truthy qQ ≠ none ∨ truthy iQ ≠ none →
      ∃ items page limit hm,
        searchCompanies db qQ iQ pQ lQ = .ok items page limit hm) := by
  constructor
  · intro db qQ iQ pQ lQ hq hi
    simp [searchCompanies, hq, hi]
  · intro db qQ iQ pQ lQ h
    have hcond : ((truthy qQ).isNone && (truthy iQ).isNone) = false := by
      rcases h with h | h <;> cases hq : truthy qQ <;> cases hi : truthy iQ <;>
        simp_all
    simp only [searchCompanies, hcond, Bool.false_eq_true, if_false]
    exact ⟨_, _, _, _, rfl⟩

/-- Witness for C10: an empty query string with no industry is falsy and
rejected; a non-empty query proceeds. -/
theorem c10_witness :
    searchCompanies ⟨[], [coAcme], [], [], []⟩ (some "") none none none =
      .badRequest "Search query or industry filter is required" ∧
    ∃ items page limit hm,
      searchCompanies ⟨[], [coAcme], [], [], []⟩ (some "Acme") none none none =
        .ok items page limit hm :=
  ⟨c10_companies_search_requires_query_or_industry.1 _ (some "") none none none
      rfl rfl,
    c10_companies_search_requires_query_or_industry.2 _ (some "Acme") none none
      none (Or.inl (by decide))⟩

/-- Closed form of `searchCompanies` once the guard passes. -/
theorem searchCompanies_ok (db : DB) (qQ iQ : Option String)
    (pQ lQ : Option Nat)
    (h : ((truthy qQ).isNone && (truthy iQ).isNone) = false) :
    searchCompanies db qQ iQ pQ lQ =
      .ok ((((sortLe companyNameLe (db.companies.filter
            (searchCompaniesPred db (truthy qQ) (truthy iQ)))).drop
              ((jsNum pQ 1 - 1) * jsNum lQ 10)).take (jsNum lQ 10)).map
            (goodsFor db))
        (jsNum pQ 1) (jsNum lQ 10)
        (((((sortLe companyNameLe (db.companies.filter
            (searchCompaniesPred db (truthy qQ) (truthy iQ)))).drop
              ((jsNum pQ 1 - 1) * jsNum lQ 10)).take (jsNum lQ 10)).length ==
          jsNum lQ 10)) := by
  simp only [searchCompanies, h, Bool.false_eq_true, if_false]

/-- C9: for both search endpoints the `hasMore` pagination flag equals
"the returned page is full-sized" (`results.length === limit`), with no
true count behind it; consequently, when the matching-result count is an
exact nonzero multiple `k·limit` of the page size, the last page (page
`k`) reports `hasMore = true` even though the following page is empty. -/
theorem c9_hasMore_equals_full_page :
    (∀ (db : DB) (qQ iQ : Option String) (pQ lQ : Option Nat)
        (items : List (Company × List GoodsService)) (page limit : Nat) (hm : Bool),
      searchCompanies db qQ iQ pQ lQ = .ok items page limit hm →
      hm = (items.length == limit)) ∧
    (∀ (db : DB) (qQ iQ sQ : Option String) (pQ lQ : Option Nat)
        (items : List Tender) (page limit : Nat) (hm : Bool),
      searchTenders db qQ iQ sQ pQ lQ = .ok items page limit hm →
      hm = (items.length == limit)) ∧
    (∀ (db : DB) (qQ iQ : Option String) (limit k : Nat),
      ((truthy qQ).isNone && (truthy iQ).isNone) = false →
      0 < limit → 0 < k →
      (db.companies.filter
        (searchCompaniesPred db (truthy qQ) (truthy iQ))).length = k * limit →
      (∃ items, searchCompanies db qQ iQ (some k) (some limit) =
        .ok items k limit true) ∧
      searchCompanies db qQ iQ (some (k + 1)) (some limit) =
        .ok [] (k + 1) limit false) := by
  refine ⟨?_, ?_, ?_⟩
  · intro db qQ iQ pQ lQ items page limit hm h
    simp only [searchCompanies] at h
    split at h
    · simp at h
    · rw [SearchResult.ok.injEq] at h
      obtain ⟨hi, hp, hl, hh⟩ := h
      subst hi
      subst hl
      subst hh
      rw [List.length_map]
  · intro db qQ iQ sQ pQ lQ items page limit hm h
    simp only [searchTenders] at h
    rw [SearchResult.ok.injEq] at h
    obtain ⟨hi, hp, hl, hh⟩ := h
    subst hi
    subst hl
    subst hh
    rfl
  · intro db qQ iQ limit k hq hlim hk hcount
    have hjk : jsNum (some k) 1 = k := by
      cases k with
      | zero => exact absurd hk (by simp)
      | succ n => rfl
    have hjl : jsNum (some limit) 10 = limit := by
      cases limit with
      | zero => exact absurd hlim (by simp)
      | succ n => rfl
    have hslen : (sortLe companyNameLe (db.companies.filter
        (searchCompaniesPred db (truthy qQ) (truthy iQ)))).length = k * limit := by
      rw [length_sortLe]
      exact hcount
    have hd1 : ((sortLe companyNameLe (db.companies.filter
        (searchCompaniesPred db (truthy qQ) (truthy iQ)))).drop
          ((k - 1) * limit)).length = limit := by
      rw [List.length_drop, hslen]
      cases k with
      | zero => exact absurd hk (by simp)
      | succ n =>
        simp only [Nat.succ_sub_one, Nat.succ_mul]
        omega
    have ht1 : (((sortLe companyNameLe (db.companies.filter
        (searchCompaniesPred db (truthy qQ) (truthy iQ)))).drop
          ((k - 1) * limit)).take limit).length = limit := by
      rw [List.length_take, hd1, min_self]
    have hd2 : (sortLe companyNameLe (db.companies.filter
        (searchCompaniesPred db (truthy qQ) (truthy iQ)))).drop
          ((k + 1 - 1) * limit) = [] := by
      apply List.length_eq_zero.mp
      rw [List.length_drop, hslen, Nat.add_sub_cancel]
      omega
    constructor
    · refine ⟨(((sortLe companyNameLe (db.companies.filter
          (searchCompaniesPred db (truthy qQ) (truthy iQ)))).drop
            ((k - 1) * limit)).take limit).map (goodsFor db), ?_⟩
      rw [searchCompanies_ok db qQ iQ (some k) (some limit) hq, hjk, hjl, ht1,
        beq_self_eq_true]
    · rw [searchCompanies_ok db qQ iQ (some (k + 1)) (some limit) hq, hjl]
      rw [show jsNum (some (k + 1)) 1 = k + 1 from rfl, hd2]
      simp only [List.take_nil, List.map_nil, List.length_nil]
      cases limit with
      | zero => exact absurd hlim (by simp)
      | succ n => rfl

/-- Witness for C9: two companies match industry `Tech`; with limit 1 the
count is the exact multiple 2·1, page 2 reports `hasMore = true` and page 3
is empty with `hasMore = false`. -/
theorem c9_witness :
    (∃ items, searchCompanies ⟨[], [coAcme, coBeta], [], [], []⟩ none
        (some "Tech") (some 2) (some 1) = .ok items 2 1 true) ∧
    searchCompanies ⟨[], [coAcme, coBeta], [], [], []⟩ none (some "Tech")
        (some 3) (some 1) = .ok [] 3 1 false :=
  c9_hasMore_equals_full_page.2.2 ⟨[], [coAcme, coBeta], [], [], []⟩ none
    (some "Tech") 1 2 rfl (by decide) (by decide) (by decide)
